import Mathlib

/-!
Shallow embedding of the agent-orchestration backend of `home_remodel_budget`
(Cloudflare worker: `src/worker/agent.ts` and the hardened git-tools facade
module, whose validation functions also appear verbatim in the test suite),
together with proofs about it.

External collaborators (the inference service, the sandbox service, and the
JavaScript `JSON.parse` builtin) are modelled as pure oracles passed in as
parameters; the behaviour of the program is then a deterministic function of those
oracles, and every call issued to an oracle is recorded in a trace so that
ordering and reachability properties can be stated.

JavaScript strings are modelled as Lean `String` (the inputs involved stay in
the code-point-for-code-unit regime where `slice`/`length` agree).
-/

/-- Contiguous-occurrence test on character lists. -/
def hasInfix (pat : List Char) : List Char → Bool
  | [] => pat.isEmpty
  | c :: rest => pat.isPrefixOf (c :: rest) || hasInfix pat rest

/-- JavaScript `String.prototype.includes`: substring containment. -/
def strIncludes (s sub : String) : Bool :=
  hasInfix sub.toList s.toList

/-- The fixed allow-list `ALLOWED_FILES` from the hardened facade module
(identical in the test suite). -/
def ALLOWED_FILES : List String := ["Code.js", "index.html", "appsscript.json"]

/-- Guard function `validateFileName` (hardened facade module, identical in
the test suite): rejects names containing `..`, `/` or `\`, then checks the
allow-list. -/
def validateFileName (fileName : String) : Bool :=
  if strIncludes fileName ".." || strIncludes fileName "/" || strIncludes fileName "\\" then
    false
  else
    ALLOWED_FILES.contains fileName

/-- The set of characters `trim` removes: JavaScript WhiteSpace and
LineTerminator code points (ECMA-262). -/
def jsWhitespace (c : Char) : Bool :=
  c.toNat = 9 || c.toNat = 10 || c.toNat = 11 || c.toNat = 12 || c.toNat = 13 ||
  c.toNat = 32 || c.toNat = 160 || c.toNat = 0x1680 ||
  (0x2000 ≤ c.toNat && c.toNat ≤ 0x200A) ||
  c.toNat = 0x2028 || c.toNat = 0x2029 || c.toNat = 0x202F || c.toNat = 0x205F ||
  c.toNat = 0x3000 || c.toNat = 0xFEFF

/-- JavaScript `String.prototype.trim` on a character list. -/
def trimList (l : List Char) : List Char :=
  ((l.dropWhile jsWhitespace).reverse.dropWhile jsWhitespace).reverse

/-- Model of the replace step: drop every angle-bracket character. -/
def stripAngles (l : List Char) : List Char :=
  l.filter (fun c => !(c = '<' || c = '>'))

/-- The fallback commit message. -/
def DEFAULT_COMMIT_MESSAGE : String := "Update Apps Script files"

/-- Guard function `sanitizeCommitMessage` (hardened facade module,
identical in the test suite): slice the message to 500 units, remove angle
brackets, trim, and fall back to the default when the result is empty (JS
or-operator on strings). -/
def sanitizeCommitMessage (message : String) : String :=
  let sanitized := String.mk (trimList (stripAngles (message.toList.take 500)))
  if sanitized = "" then DEFAULT_COMMIT_MESSAGE else sanitized

/-! ## Data model (`agent.ts`, `tools.ts`)

Here `ToolCall` flattens the nested record shape of the source: `name` stands for `toolCall.function.name` and `arguments` for
`toolCall.function.arguments`. -/

structure ToolCall where
  id : String
  name : String
  arguments : String
deriving DecidableEq, Repr

structure ChatMessage where
  role : String
  content : String
  tool_call_id : Option String := none
  tool_calls : Option (List ToolCall) := none
deriving DecidableEq, Repr

/-- JSON values, as produced by the JavaScript `JSON.parse` builtin
(numbers restricted to integers; no claim depends on numeric payloads). -/
inductive Json where
  | null : Json
  | bool : Bool → Json
  | num : Int → Json
  | str : String → Json
  | arr : List Json → Json
  | obj : List (String × Json) → Json
deriving Repr

/-- A value thrown by JavaScript code: an `Error` carrying a message, or any
other thrown value (whose message the handlers replace by a fixed string). -/
inductive Thrown where
  | err : String → Thrown
  | nonError : Thrown
deriving DecidableEq, Repr

/-- Description of a thrown value: its message when it is an Error, else
the fixed unknown-error string (the instanceof check in the handlers). -/
def describeThrown : Thrown → String
  | .err m => m
  | .nonError => "Unknown error"

/-- One call issued to the external sandbox service. -/
inductive SandboxCall where
  | gitCheckout : String → String → Nat → SandboxCall
  | readFile : String → SandboxCall
  | writeFile : String → String → SandboxCall
  | exec : String → List String → SandboxCall
deriving DecidableEq, Repr

/-- The `{stdout, output}` record returned by `sandbox.exec`
(either field may be absent). -/
structure ExecResult where
  stdout : Option String := none
  output : Option String := none
deriving DecidableEq, Repr

/-- The external sandbox service, modelled as a pure oracle: each operation
deterministically returns a value or a thrown error. -/
structure SandboxModel where
  gitCheckout : String → String → Nat → Except Thrown Unit
  readFile : String → Except Thrown String
  writeFile : String → String → Except Thrown Unit
  exec : String → List String → Except Thrown ExecResult

structure GitToolsConfig where
  repoUrl : String
  githubToken : String
  appsScriptId : String
deriving DecidableEq, Repr

/-- JavaScript `||` on strings / optional strings: the left value unless it
is absent or empty. Also models `env.X || fallback`. -/
def jsOr (a : Option String) (b : String) : String :=
  match a with
  | some s => if s = "" then b else s
  | none => b

/-- JavaScript `String.prototype.replace` with a string pattern: replace the
first occurrence only. -/
def replaceFirstAux (pat rep : List Char) : List Char → List Char
  | [] => []
  | c :: rest =>
    if pat.isPrefixOf (c :: rest) then rep ++ (c :: rest).drop pat.length
    else c :: replaceFirstAux pat rep rest

def replaceFirst (s pat rep : String) : String :=
  if pat.toList.isEmpty then String.mk (rep.toList ++ s.toList)
  else String.mk (replaceFirstAux pat.toList rep.toList s.toList)

/-! ## Sandbox Operations Facade (hardened `tools.ts`)

Embedded from the hardened facade module shipped in the repository (the
guarded variant of the git-tools file): its read and write operations call
`validateFileName` and throw before any sandbox call when the name is
rejected, and its commit operation applies `sanitizeCommitMessage` to the
message before the git exec. Each operation returns the value the
TypeScript function resolves with (or the error it rejects with), paired
with the trace of sandbox calls issued. -/

/-- The message of the error thrown on a rejected file name. -/
def invalidFileNameMessage (fileName : String) : String :=
  "Invalid file name: " ++ fileName ++ ". Allowed files: " ++
    String.intercalate ", " ALLOWED_FILES

def cloneRepository (sb : SandboxModel) (config : GitToolsConfig) :
    Except Thrown String × List SandboxCall :=
  let authenticatedUrl :=
    replaceFirst config.repoUrl "https://github.com/"
      ("https://" ++ config.githubToken ++ "@github.com/")
  match sb.gitCheckout authenticatedUrl "/workspace/repo" 1 with
  | .error t => (.error t, [.gitCheckout authenticatedUrl "/workspace/repo" 1])
  | .ok _ => (.ok "Repository cloned successfully to /workspace/repo",
      [.gitCheckout authenticatedUrl "/workspace/repo" 1])

def readAppsScriptFile (sb : SandboxModel) (fileName : String) :
    Except Thrown String × List SandboxCall :=
  if !validateFileName fileName then
    (.error (.err (invalidFileNameMessage fileName)), [])
  else
    let filePath := "/workspace/repo/appsscript/src/" ++ fileName
    (sb.readFile filePath, [.readFile filePath])

def writeAppsScriptFile (sb : SandboxModel) (fileName content : String) :
    Except Thrown String × List SandboxCall :=
  if !validateFileName fileName then
    (.error (.err (invalidFileNameMessage fileName)), [])
  else
    let filePath := "/workspace/repo/appsscript/src/" ++ fileName
    match sb.writeFile filePath content with
    | .error t => (.error t, [.writeFile filePath content])
    | .ok _ => (.ok ("File " ++ fileName ++ " updated successfully"),
        [.writeFile filePath content])

def listAppsScriptFiles (sb : SandboxModel) : Except Thrown String × List SandboxCall :=
  match sb.exec "ls" ["-la", "/workspace/repo/appsscript/src"] with
  | .error t => (.error t, [.exec "ls" ["-la", "/workspace/repo/appsscript/src"]])
  | .ok r => (.ok (jsOr r.stdout (jsOr r.output "No files found")),
      [.exec "ls" ["-la", "/workspace/repo/appsscript/src"]])

def commitChanges (sb : SandboxModel) (message : String) :
    Except Thrown String × List SandboxCall :=
  let sanitizedMessage := sanitizeCommitMessage message
  match sb.exec "git" ["-C", "/workspace/repo", "add", "."] with
  | .error t => (.error t, [.exec "git" ["-C", "/workspace/repo", "add", "."]])
  | .ok _ =>
    match sb.exec "git" ["-C", "/workspace/repo", "commit", "-m", sanitizedMessage] with
    | .error t => (.error t,
        [.exec "git" ["-C", "/workspace/repo", "add", "."],
         .exec "git" ["-C", "/workspace/repo", "commit", "-m", sanitizedMessage]])
    | .ok r => (.ok (jsOr r.stdout (jsOr r.output "Changes committed")),
        [.exec "git" ["-C", "/workspace/repo", "add", "."],
         .exec "git" ["-C", "/workspace/repo", "commit", "-m", sanitizedMessage]])

def pushChanges (sb : SandboxModel) (config : GitToolsConfig) :
    Except Thrown String × List SandboxCall :=
  let authenticatedUrl :=
    replaceFirst config.repoUrl "https://github.com/"
      ("https://" ++ config.githubToken ++ "@github.com/")
  match sb.exec "git" ["-C", "/workspace/repo", "remote", "set-url", "origin", authenticatedUrl] with
  | .error t => (.error t,
      [.exec "git" ["-C", "/workspace/repo", "remote", "set-url", "origin", authenticatedUrl]])
  | .ok _ =>
    match sb.exec "git" ["-C", "/workspace/repo", "push", "origin", "main"] with
    | .error t => (.error t,
        [.exec "git" ["-C", "/workspace/repo", "remote", "set-url", "origin", authenticatedUrl],
         .exec "git" ["-C", "/workspace/repo", "push", "origin", "main"]])
    | .ok _ => (.ok "Changes pushed to GitHub. This will trigger the Apps Script deployment workflow.",
        [.exec "git" ["-C", "/workspace/repo", "remote", "set-url", "origin", authenticatedUrl],
         .exec "git" ["-C", "/workspace/repo", "push", "origin", "main"]])

def getGitStatus (sb : SandboxModel) : Except Thrown String × List SandboxCall :=
  match sb.exec "git" ["-C", "/workspace/repo", "status"] with
  | .error t => (.error t, [.exec "git" ["-C", "/workspace/repo", "status"]])
  | .ok r => (.ok (jsOr r.stdout (jsOr r.output "No changes")),
      [.exec "git" ["-C", "/workspace/repo", "status"]])

/-! ## Tool Registry (`agentTools` in `tools.ts`) -/

structure ToolParam where
  pname : String
  ptype : String
  pdesc : String
deriving DecidableEq, Repr

/-- One registry entry, flattened from the nested record in the source;
field `ttype` stands for the field named type. -/
structure ToolDef where
  ttype : String
  name : String
  description : String
  properties : List ToolParam
  required : List String
deriving DecidableEq, Repr

def agentTools : List ToolDef :=
  [ { ttype := "function", name := "clone_repository"
    , description := "Clone the home_remodel_budget repository into the sandbox workspace"
    , properties := [], required := [] }
  , { ttype := "function", name := "read_file"
    , description := "Read the contents of a file from the Apps Script source directory (appsscript/src/)"
    , properties := [⟨"fileName", "string",
        "The name of the file to read (e.g., \"Code.js\" or \"index.html\")"⟩]
    , required := ["fileName"] }
  , { ttype := "function", name := "write_file"
    , description := "Write content to a file in the Apps Script source directory (appsscript/src/)"
    , properties := [⟨"fileName", "string",
        "The name of the file to write (e.g., \"Code.js\" or \"index.html\")"⟩,
        ⟨"content", "string", "The new content for the file"⟩]
    , required := ["fileName", "content"] }
  , { ttype := "function", name := "list_files"
    , description := "List all files in the Apps Script source directory"
    , properties := [], required := [] }
  , { ttype := "function", name := "commit_changes"
    , description := "Commit all changes made to the repository with a descriptive message"
    , properties := [⟨"message", "string", "The commit message describing the changes"⟩]
    , required := ["message"] }
  , { ttype := "function", name := "push_changes"
    , description := "Push committed changes to GitHub. This will trigger the Apps Script deployment workflow."
    , properties := [], required := [] }
  , { ttype := "function", name := "get_status"
    , description := "Get the current git status showing any uncommitted changes"
    , properties := [], required := [] } ]

/-! ## JSON object access (JavaScript property semantics) -/

/-- Property lookup on an object produced by `JSON.parse`: with duplicate
keys, the last occurrence wins. -/
def getField (kvs : List (String × Json)) (k : String) : Option Json :=
  (kvs.reverse.find? (fun p => p.1 == k)).map (fun p => p.2)

/-- String-valued property access: property access on a non-object (or
an array, whose named properties are absent) yields `undefined`, which is
not a string. -/
def getStrField (v : Json) (k : String) : Option String :=
  match v with
  | .obj kvs =>
    match getField kvs k with
    | some (.str s) => some s
    | _ => none
  | _ => none

/-! ## Tool dispatch (`executeToolCall` in `agent.ts`) -/

/-- Parsing of the argument payload: JSON.parse of the payload, with the
empty-object text substituted for an empty payload, and the parse modelled
by the `jsonParse` oracle (`none` means the parse threw). -/
def parsedArgs (jsonParse : String → Option Json) (toolCall : ToolCall) : Option Json :=
  jsonParse (if toolCall.arguments = "" then "\x7b\x7d" else toolCall.arguments)

/-- Coercion applied to the parsed arguments: objects and arrays pass the
typeof check (typeof of an array is the object tag); null and primitives
are replaced by the empty object. -/
def coerceToObject (v : Json) : Json :=
  match v with
  | .obj _ => v
  | .arr _ => v
  | _ => .obj []

def executeToolCall (jsonParse : String → Option Json) (sb : SandboxModel)
    (toolCall : ToolCall) (config : GitToolsConfig) : String × List SandboxCall :=
  match parsedArgs jsonParse toolCall with
  | none => ("Error: Invalid arguments for tool " ++ toolCall.name, [])
  | some v =>
    let args := coerceToObject v
    let wrap : Except Thrown String × List SandboxCall → String × List SandboxCall :=
      fun r =>
        match r with
        | (.ok s, tr) => (s, tr)
        | (.error t, tr) =>
          ("Error executing " ++ toolCall.name ++ ": " ++ describeThrown t, tr)
    match toolCall.name with
    | "clone_repository" => wrap (cloneRepository sb config)
    | "read_file" =>
      match getStrField args "fileName" with
      | none => ("Error: fileName must be a string", [])
      | some fileName => wrap (readAppsScriptFile sb fileName)
    | "write_file" =>
      match getStrField args "fileName", getStrField args "content" with
      | some fileName, some content => wrap (writeAppsScriptFile sb fileName content)
      | _, _ => ("Error: fileName and content must be strings", [])
    | "list_files" => wrap (listAppsScriptFiles sb)
    | "commit_changes" =>
      match getStrField args "message" with
      | none => ("Error: message must be a string", [])
      | some message => wrap (commitChanges sb message)
    | "push_changes" => wrap (pushChanges sb config)
    | "get_status" => wrap (getGitStatus sb)
    | _ => ("Unknown tool: " ++ toolCall.name, [])

/-! ## Conversation Orchestrator (`runAgentConversation` in `agent.ts`) -/

def SYSTEM_PROMPT : String :=
  "You are a helpful assistant for the Home Remodel Budget application. You help users manage their home renovation budget by:\n\n1. Answering questions about budget tracking and expense management\n2. Helping update the Google Apps Script project that powers the budget tracker\n3. Managing expense categories and features in the codebase\n\nYou have access to tools that allow you to:\n- Clone the repository\n- Read and modify Apps Script files (Code.js and index.html)\n- Commit and push changes to trigger automatic deployment\n\nWhen users ask you to make changes to the Apps Script project:\n1. First clone the repository\n2. Read the current file contents\n3. Make the requested modifications\n4. Show the user what changes you made\n5. Ask for confirmation before committing and pushing\n\nBe helpful, clear, and always explain what you\x27re doing. If you make code changes, explain what the changes do."

def DEFAULT_MAX_TOKENS : Nat := 2048

def systemMessage : ChatMessage := { role := "system", content := SYSTEM_PROMPT }

/-- A request issued to the inference service (`env.AI.run` arguments; the
fixed model name is elided since it never varies). -/
structure AIRequest where
  messages : List ChatMessage
  tools : Option (List ToolDef)
  max_tokens : Nat
deriving DecidableEq, Repr

/-- Response shape of the inference service. -/
structure AIResult where
  response : Option String := none
  tool_calls : Option (List ToolCall) := none
deriving DecidableEq, Repr

/-- The first-round request: system prompt prepended, tools offered. -/
def firstAIRequest (messages : List ChatMessage) : AIRequest :=
  { messages := systemMessage :: messages
  , tools := some agentTools
  , max_tokens := DEFAULT_MAX_TOKENS }

/-- One iteration of the `for (const toolCall of aiResult.tool_calls)` loop:
dispatch the call, append its tool-role result message and its sandbox
trace. -/
def dispatchStep (jsonParse : String → Option Json) (sb : SandboxModel)
    (config : GitToolsConfig) (acc : List ChatMessage × List SandboxCall)
    (tc : ToolCall) : List ChatMessage × List SandboxCall :=
  let r := executeToolCall jsonParse sb tc config
  (acc.1 ++ [{ role := "tool", content := r.1, tool_call_id := some tc.id }],
   acc.2 ++ r.2)

/-- Orchestrator `runAgentConversation`, returning the resolved reply (or
the thrown error), the sandbox-call trace, and the inference-request
trace. -/
def runAgentConversation (ai : AIRequest → Except Thrown AIResult)
    (jsonParse : String → Option Json) (sb : SandboxModel)
    (messages : List ChatMessage) (gitConfig : GitToolsConfig) :
    Except Thrown String × List SandboxCall × List AIRequest :=
  let fullMessages := systemMessage :: messages
  let req1 := firstAIRequest messages
  match ai req1 with
  | .error t => (.error t, [], [req1])
  | .ok aiResult =>
    match aiResult.tool_calls with
    | some toolCalls =>
      if 0 < toolCalls.length then
        let st := toolCalls.foldl (dispatchStep jsonParse sb gitConfig) ([], [])
        let followUpMessages := fullMessages ++
          [{ role := "assistant", content := "", tool_calls := some toolCalls }] ++ st.1
        let req2 : AIRequest :=
          { messages := followUpMessages, tools := none, max_tokens := DEFAULT_MAX_TOKENS }
        match ai req2 with
        | .error t => (.error t, st.2, [req1, req2])
        | .ok followUpResult =>
          (.ok (jsOr followUpResult.response "I executed the requested operations."),
           st.2, [req1, req2])
      else
        (.ok (jsOr aiResult.response "I apologize, but I could not generate a response."),
         [], [req1])
    | none =>
      (.ok (jsOr aiResult.response "I apologize, but I could not generate a response."),
       [], [req1])

/-! ## HTTP Boundary (`validateRequestBody`, `handleChat` in `agent.ts`) -/

def VALID_ROLES : List String := ["user", "assistant", "system", "tool"]

/-- Element check `isValidMessage`: the element is an object whose `role` is one of the
four recognized roles and whose `content` is a string. (Arrays and `null`
reach the `typeof` check in the source but fail the field checks.) -/
def isValidMessage (msg : Json) : Bool :=
  match msg with
  | .obj kvs =>
    (match getField kvs "role" with
     | some (.str r) => VALID_ROLES.contains r
     | _ => false) &&
    (match getField kvs "content" with
     | some (.str _) => true
     | _ => false)
  | _ => false

/-- The TypeScript cast of a validated element to `ChatMessage`: the program
only ever inspects the typed fields, so the model keeps those. -/
def toChatMessage (msg : Json) : ChatMessage :=
  { role := (getStrField msg "role").getD ""
  , content := (getStrField msg "content").getD ""
  , tool_call_id := getStrField msg "tool_call_id" }

/-- Body check `validateRequestBody`: throws on a non-object body (`null` or a
primitive; arrays pass the `typeof` check), returns `[]` when `messages` is
missing or not an array, and otherwise filters the array elementwise. -/
def validateRequestBody : Json → Except Thrown (List ChatMessage)
  | .obj kvs =>
    match getField kvs "messages" with
    | some (.arr ms) => .ok ((ms.filter isValidMessage).map toChatMessage)
    | _ => .ok []
  | .arr _ => .ok []
  | _ => .error (.err "Invalid request body")

def APOLOGY : String :=
  "I apologize, but I encountered an error processing your request. Please try again."

/-- The 500 envelope built in the catch block of `handleChat` (status
paired with the structural JSON body, field order as in the source). -/
def errorEnvelope (t : Thrown) : Nat × Json :=
  (500, Json.obj [("message", Json.str APOLOGY), ("error", Json.str (describeThrown t))])

/-- The `gitConfig` built in `handleChat` from the environment bindings
(`env.X || fallback`). -/
def chatGitConfig (envRepoUrl envGithubToken envAppsScriptId : Option String) :
    GitToolsConfig :=
  { repoUrl := jsOr envRepoUrl "https://github.com/jmbish04/home_remodel_budget"
  , githubToken := jsOr envGithubToken ""
  , appsScriptId := jsOr envAppsScriptId "" }

/-- Handler `handleChat`: `body` is the outcome of the request-body JSON
parse (`.error` means the parse rejected); the three `env` arguments model
the environment bindings REPO_URL, GITHUB_TOKEN and APPS_SCRIPT_ID.
Returns (status, JSON body) plus the two traces. -/
def handleChat (ai : AIRequest → Except Thrown AIResult)
    (jsonParse : String → Option Json) (sb : SandboxModel)
    (body : Except Thrown Json)
    (envRepoUrl envGithubToken envAppsScriptId : Option String) :
    (Nat × Json) × List SandboxCall × List AIRequest :=
  match body with
  | .error t => (errorEnvelope t, [], [])
  | .ok b =>
    match validateRequestBody b with
    | .error t => (errorEnvelope t, [], [])
    | .ok messages =>
      match runAgentConversation ai jsonParse sb messages
          (chatGitConfig envRepoUrl envGithubToken envAppsScriptId) with
      | (.error t, tr, ar) => (errorEnvelope t, tr, ar)
      | (.ok response, tr, ar) =>
        ((200, Json.obj [("message", Json.str response)]), tr, ar)

/-! ## Derived descriptions used in the statements

These name the messages and requests `runAgentConversation` constructs, so
theorems can speak about the transcript shape. -/

/-- The tool-role message recorded for one dispatched call. -/
def toolResultMessage (jsonParse : String → Option Json) (sb : SandboxModel)
    (config : GitToolsConfig) (tc : ToolCall) : ChatMessage :=
  { role := "tool", content := (executeToolCall jsonParse sb tc config).1
  , tool_call_id := some tc.id }

/-- The synthetic assistant message echoing that tool calls occurred. -/
def assistantEchoMessage (toolCalls : List ToolCall) : ChatMessage :=
  { role := "assistant", content := "", tool_calls := some toolCalls }

/-- The second-round request: first-round transcript, then the assistant
echo, then one tool message per call; no tools; same budget. -/
def followUpAIRequest (jsonParse : String → Option Json) (sb : SandboxModel)
    (config : GitToolsConfig) (messages : List ChatMessage)
    (toolCalls : List ToolCall) : AIRequest :=
  { messages := (systemMessage :: messages) ++ [assistantEchoMessage toolCalls] ++
      toolCalls.map (toolResultMessage jsonParse sb config)
  , tools := none
  , max_tokens := DEFAULT_MAX_TOKENS }

/-- The operation names recognized by the switch in `executeToolCall`. -/
def registeredToolNames : List String :=
  ["clone_repository", "read_file", "write_file", "list_files",
   "commit_changes", "push_changes", "get_status"]

/-! ## Concrete environments for closed evaluations -/

/-- A sandbox whose operations all succeed with fixed values. -/
def sbOk : SandboxModel :=
  { gitCheckout := fun _ _ _ => .ok ()
  , readFile := fun _ => .ok "leaked"
  , writeFile := fun _ _ => .ok ()
  , exec := fun _ _ => .ok { stdout := some "clean" } }

/-- A parse oracle returning a fixed object with a path-traversal file name
(the payload text itself is irrelevant to the dispatcher). -/
def jpTraversal : String → Option Json :=
  fun _ => some (Json.obj [("fileName", Json.str "../../etc/passwd")])

/-- A parse oracle that fails on the payload `"BAD"` and returns the empty
object otherwise. -/
def jpBadMarker : String → Option Json :=
  fun s => if s = "BAD" then none else some (Json.obj [])

/-- A parse oracle that always returns the empty object. -/
def jpEmptyObj : String → Option Json := fun _ => some (Json.obj [])

def cfgDefault : GitToolsConfig :=
  { repoUrl := "https://github.com/jmbish04/home_remodel_budget"
  , githubToken := "", appsScriptId := "" }

/-- An inference oracle: offers the given batch in round one (recognized by
the presence of the `tools` field) and replies `"done"` in round two. -/
def aiBatch (toolCalls : List ToolCall) : AIRequest → Except Thrown AIResult :=
  fun req =>
    match req.tools with
    | some _ => .ok { response := none, tool_calls := some toolCalls }
    | none => .ok { response := some "done", tool_calls := none }

/-- A parse oracle yielding a traversal `fileName` plus a `content`. -/
def jpTraversalWrite : String → Option Json :=
  fun _ => some (Json.obj
    [("fileName", Json.str "../../etc/passwd"), ("content", Json.str "pwned")])

/-- A parse oracle yielding the allow-listed fileName `Code.js`. -/
def jpCodeJs : String → Option Json :=
  fun _ => some (Json.obj [("fileName", Json.str "Code.js")])

/-- An inference oracle that never requests tools and replies `"hello"`. -/
def aiPlain : AIRequest → Except Thrown AIResult :=
  fun _ => .ok { response := some "hello", tool_calls := none }

def traversalReadCall : ToolCall :=
  { id := "call-1", name := "read_file", arguments := "payload" }

def traversalWriteCall : ToolCall :=
  { id := "call-2", name := "write_file", arguments := "payload" }

def badArgsCall : ToolCall :=
  { id := "1", name := "list_files", arguments := "BAD" }

def statusCall : ToolCall :=
  { id := "2", name := "get_status", arguments := "OK" }

def unknownCall : ToolCall :=
  { id := "3", name := "delete_everything", arguments := "OK" }

theorem sanity_validate_code : validateFileName "Code.js" = true := by decide

theorem sanity_validate_trav : validateFileName "../../etc/passwd" = false := by decide

theorem sanity_sanitize :
    sanitizeCommitMessage "Test <script>alert(1)</script>" = "Test scriptalert(1)/script" := by
  decide

/-- C2: `validateFileName(name)` is true iff `name` is one of the three
allow-listed entries and contains none of `..`, `/`, `\`; in particular
`validateFileName "Code.js" = true`, `validateFileName "../../etc/passwd" =
false`, and any name containing one of the escape substrings is rejected. -/
theorem validateFileName_spec :
    (∀ name : String, validateFileName name = true ↔
      (name ∈ ALLOWED_FILES ∧ strIncludes name ".." = false ∧
       strIncludes name "/" = false ∧ strIncludes name "\\" = false)) ∧
    (∀ name : String,
      (strIncludes name ".." = true ∨ strIncludes name "/" = true ∨
        strIncludes name "\\" = true) → validateFileName name = false) ∧
    validateFileName "Code.js" = true ∧
    validateFileName "../../etc/passwd" = false := by
  have hfalse : ∀ name : String,
      (strIncludes name ".." = true ∨ strIncludes name "/" = true ∨
        strIncludes name "\\" = true) → validateFileName name = false := by
    intro name h
    have hc : (strIncludes name ".." || strIncludes name "/" || strIncludes name "\\") = true := by
      rcases h with h | h | h <;> simp [h]
    unfold validateFileName
    simp [hc]
  refine ⟨?_, hfalse, by decide, by decide⟩
  intro name
  constructor
  · intro hv
    unfold validateFileName at hv
    cases hc : (strIncludes name ".." || strIncludes name "/" || strIncludes name "\\") with
    | true => simp [hc] at hv
    | false =>
      simp only [hc, Bool.false_eq_true, if_false] at hv
      simp only [Bool.or_eq_false_iff] at hc
      obtain ⟨⟨h1, h2⟩, h3⟩ := hc
      refine ⟨?_, h1, h2, h3⟩
      simpa using hv
  · rintro ⟨hmem, h1, h2, h3⟩
    unfold validateFileName
    simp [h1, h2, h3, hmem]

/-- Guard witness: an allow-listed name is accepted and an escape-bearing
name is rejected, via `validateFileName_spec`. -/
theorem validateFileName_spec_w :
    validateFileName "src/Code.js" = false ∧ validateFileName "index.html" = true :=
  ⟨validateFileName_spec.2.1 "src/Code.js" (Or.inr (Or.inl (by decide))),
   (validateFileName_spec.1 "index.html").mpr ⟨by decide, by decide, by decide, by decide⟩⟩

/-! ### Helper lemmas about `trimList` / `sanitizeCommitMessage` -/

theorem trimList_length_le (l : List Char) : (trimList l).length ≤ l.length := by
  unfold trimList
  calc ((l.dropWhile jsWhitespace).reverse.dropWhile jsWhitespace).reverse.length
      = ((l.dropWhile jsWhitespace).reverse.dropWhile jsWhitespace).length := by
        simp
    _ ≤ (l.dropWhile jsWhitespace).reverse.length :=
        (List.dropWhile_sublist jsWhitespace).length_le
    _ = (l.dropWhile jsWhitespace).length := by simp
    _ ≤ l.length := (List.dropWhile_sublist jsWhitespace).length_le

theorem mem_of_mem_trimList {a : Char} {l : List Char} (h : a ∈ trimList l) : a ∈ l := by
  unfold trimList at h
  rw [List.mem_reverse] at h
  have h2 := (List.dropWhile_sublist jsWhitespace).subset h
  rw [List.mem_reverse] at h2
  exact (List.dropWhile_sublist jsWhitespace).subset h2

theorem trimList_eq_nil {l : List Char} (h : ∀ c ∈ l, jsWhitespace c = true) :
    trimList l = [] := by
  unfold trimList
  have h1 : l.dropWhile jsWhitespace = [] := List.dropWhile_eq_nil_iff.mpr h
  simp [h1]

theorem dropWhile_eq_self_of_head {p : Char → Bool} {l : List Char}
    (h : ∀ c, l.head? = some c → p c = false) : l.dropWhile p = l := by
  cases l with
  | nil => rfl
  | cons a rest =>
    have ha : p a = false := h a rfl
    simp [List.dropWhile_cons, ha]

theorem trimList_head {l : List Char} {c : Char}
    (h : (trimList l).head? = some c) : jsWhitespace c = false := by
  unfold trimList at h
  rw [List.head?_reverse] at h
  obtain ⟨pre, hpre⟩ :=
    List.dropWhile_suffix (l := (l.dropWhile jsWhitespace).reverse) jsWhitespace
  have hY : ((l.dropWhile jsWhitespace).reverse).getLast? = some c := by
    rw [← hpre, List.getLast?_append, h]
    rfl
  rw [List.getLast?_reverse] at hY
  have hmatch := List.head?_dropWhile_not jsWhitespace l
  rw [hY] at hmatch
  exact hmatch

theorem trimList_getLast {l : List Char} {c : Char}
    (h : (trimList l).getLast? = some c) : jsWhitespace c = false := by
  unfold trimList at h
  rw [List.getLast?_reverse] at h
  have hmatch := List.head?_dropWhile_not jsWhitespace (l.dropWhile jsWhitespace).reverse
  rw [h] at hmatch
  exact hmatch

/-- Unfolding equation for `sanitizeCommitMessage`. -/
theorem sanitizeCommitMessage_eq (x : String) :
    sanitizeCommitMessage x =
      (if String.mk (trimList (stripAngles (x.toList.take 500))) = ""
       then DEFAULT_COMMIT_MESSAGE
       else String.mk (trimList (stripAngles (x.toList.take 500)))) := rfl

theorem trimList_eq_self {l : List Char}
    (h1 : ∀ c, l.head? = some c → jsWhitespace c = false)
    (h2 : ∀ c, l.getLast? = some c → jsWhitespace c = false) : trimList l = l := by
  unfold trimList
  rw [dropWhile_eq_self_of_head h1]
  rw [dropWhile_eq_self_of_head (p := jsWhitespace) (l := l.reverse) ?_]
  · exact List.reverse_reverse l
  · intro c hc
    rw [List.head?_reverse] at hc
    exact h2 c hc

theorem mem_stripAngles_take {c : Char} {x : String}
    (h : c ∈ trimList (stripAngles (x.toList.take 500))) :
    (!(c = '<' || c = '>')) = true := by
  have h1 := mem_of_mem_trimList h
  exact (List.mem_filter.mp h1).2

theorem sanitize_core_length (x : String) :
    (trimList (stripAngles (x.toList.take 500))).length ≤ 500 := by
  calc (trimList (stripAngles (x.toList.take 500))).length
      ≤ (stripAngles (x.toList.take 500)).length := trimList_length_le _
    _ ≤ (x.toList.take 500).length := List.length_filter_le _ _
    _ ≤ 500 := List.length_take_le _ _

/-- C3: `sanitizeCommitMessage` output has length at most 500, contains no
angle bracket, starts and ends with a non-whitespace character, is the fixed
default (hence never empty) on empty or whitespace-only input, and maps the
spec scenario `"Test <script>alert(1)</script>"` to
`"Test scriptalert(1)/script"`. -/
theorem sanitizeCommitMessage_spec :
    (∀ x : String, (sanitizeCommitMessage x).toList.length ≤ 500) ∧
    (∀ x : String, '<' ∉ (sanitizeCommitMessage x).toList ∧
      '>' ∉ (sanitizeCommitMessage x).toList) ∧
    (∀ x : String, ∀ c : Char,
      ((sanitizeCommitMessage x).toList.head? = some c → jsWhitespace c = false) ∧
      ((sanitizeCommitMessage x).toList.getLast? = some c → jsWhitespace c = false)) ∧
    (∀ x : String, (∀ c ∈ x.toList, jsWhitespace c = true) →
      sanitizeCommitMessage x = DEFAULT_COMMIT_MESSAGE) ∧
    (∀ x : String, sanitizeCommitMessage x ≠ "") ∧
    sanitizeCommitMessage "" = DEFAULT_COMMIT_MESSAGE ∧
    DEFAULT_COMMIT_MESSAGE = "Update Apps Script files" ∧
    sanitizeCommitMessage "Test <script>alert(1)</script>" = "Test scriptalert(1)/script" := by
  refine ⟨?_, ?_, ?_, ?_, ?_, by decide, by decide, by decide⟩
  · intro x
    rw [sanitizeCommitMessage_eq]
    split
    · decide
    · exact sanitize_core_length x
  · intro x
    rw [sanitizeCommitMessage_eq]
    split
    · exact ⟨by decide, by decide⟩
    · constructor
      · intro hmem
        have hpred := mem_stripAngles_take (x := x) hmem
        simp at hpred
      · intro hmem
        have hpred := mem_stripAngles_take (x := x) hmem
        simp at hpred
  · intro x c
    rw [sanitizeCommitMessage_eq]
    split
    · constructor
      · intro h
        have h0 : DEFAULT_COMMIT_MESSAGE.toList.head? = some 'U' := by decide
        have hc : c = 'U' := Option.some.inj (h0.symm.trans h).symm
        subst hc; decide
      · intro h
        have h0 : DEFAULT_COMMIT_MESSAGE.toList.getLast? = some 's' := by decide
        have hc : c = 's' := Option.some.inj (h0.symm.trans h).symm
        subst hc; decide
    · exact ⟨fun h => trimList_head h, fun h => trimList_getLast h⟩
  · intro x hws
    rw [sanitizeCommitMessage_eq]
    have hnil : trimList (stripAngles (x.toList.take 500)) = [] := by
      apply trimList_eq_nil
      intro c hc
      have h1 := List.mem_filter.mp hc
      exact hws c (List.take_subset _ _ h1.1)
    rw [hnil]
    rfl
  · intro x
    rw [sanitizeCommitMessage_eq]
    split
    · decide
    · next h => exact h

/-- Sanitizer witness: `sanitizeCommitMessage` on a concrete
whitespace-only input equals the default, via `sanitizeCommitMessage_spec`. -/
theorem sanitizeCommitMessage_spec_w :
    sanitizeCommitMessage "   " = DEFAULT_COMMIT_MESSAGE :=
  sanitizeCommitMessage_spec.2.2.2.1 "   " (by decide)

/-- C4: `sanitizeCommitMessage` is idempotent. -/
theorem sanitizeCommitMessage_idem (x : String) :
    sanitizeCommitMessage (sanitizeCommitMessage x) = sanitizeCommitMessage x := by
  rw [sanitizeCommitMessage_eq x]
  split
  · decide
  · next hne =>
    set t := trimList (stripAngles (x.toList.take 500)) with ht
    have htake : t.take 500 = t := List.take_of_length_le (by rw [ht]; exact sanitize_core_length x)
    have hstrip : stripAngles t = t := by
      apply List.filter_eq_self.mpr
      intro a ha
      rw [ht] at ha
      exact mem_stripAngles_take (x := x) ha
    have htrim : trimList t = t := by
      apply trimList_eq_self
      · intro c hc
        rw [ht] at hc
        exact trimList_head (l := stripAngles (x.toList.take 500)) hc
      · intro c hc
        rw [ht] at hc
        exact trimList_getLast (l := stripAngles (x.toList.take 500)) hc
    rw [sanitizeCommitMessage_eq (String.mk t)]
    have hdata : (String.mk t).toList = t := rfl
    rw [hdata, htake, hstrip, htrim]
    split
    · next habs => exact absurd habs hne
    · rfl

/-! ### Helper lemmas about the dispatch loop -/

/-- The `for` loop over a batch, as a fold, produces one tool message per
call and concatenates the sandbox traces in batch order. -/
theorem dispatch_foldl (jp : String → Option Json) (sb : SandboxModel)
    (cfg : GitToolsConfig) (tcs : List ToolCall)
    (acc : List ChatMessage × List SandboxCall) :
    tcs.foldl (dispatchStep jp sb cfg) acc =
      (acc.1 ++ tcs.map (toolResultMessage jp sb cfg),
       acc.2 ++ (tcs.map (fun tc => (executeToolCall jp sb tc cfg).2)).flatten) := by
  induction tcs generalizing acc with
  | nil => simp
  | cons tc rest ih =>
    rw [List.foldl_cons, ih]
    simp [dispatchStep, toolResultMessage, List.append_assoc]

/-- Evaluation of `runAgentConversation` when the first response carries a
non-empty batch: the result is determined by the follow-up call on
`followUpAIRequest`, the sandbox trace is the in-order concatenation of the
per-call traces, and exactly two inference requests are issued. -/
theorem runAgent_eq_toolcalls (ai : AIRequest → Except Thrown AIResult)
    (jp : String → Option Json) (sb : SandboxModel) (msgs : List ChatMessage)
    (cfg : GitToolsConfig) (r : AIResult) (tcs : List ToolCall)
    (h1 : ai (firstAIRequest msgs) = .ok r)
    (h2 : r.tool_calls = some tcs) (hne : tcs ≠ []) :
    runAgentConversation ai jp sb msgs cfg =
      ((match ai (followUpAIRequest jp sb cfg msgs tcs) with
        | .error t => Except.error t
        | .ok r2 => Except.ok (jsOr r2.response "I executed the requested operations.")),
       (tcs.map (fun tc => (executeToolCall jp sb tc cfg).2)).flatten,
       [firstAIRequest msgs, followUpAIRequest jp sb cfg msgs tcs]) := by
  have hlen : 0 < tcs.length := List.length_pos.mpr hne
  simp only [runAgentConversation]
  rw [h1]
  simp only [h2, if_pos hlen, dispatch_foldl, List.nil_append, followUpAIRequest,
    assistantEchoMessage, firstAIRequest, List.append_assoc, List.cons_append,
    List.singleton_append]
  split <;> rfl

/-- Evaluation of `runAgentConversation` when the first response carries no batch. -/
theorem runAgent_eq_no_toolcalls (ai : AIRequest → Except Thrown AIResult)
    (jp : String → Option Json) (sb : SandboxModel) (msgs : List ChatMessage)
    (cfg : GitToolsConfig) (r : AIResult)
    (h1 : ai (firstAIRequest msgs) = .ok r)
    (h2 : r.tool_calls = none ∨ r.tool_calls = some []) :
    runAgentConversation ai jp sb msgs cfg =
      (.ok (jsOr r.response "I apologize, but I could not generate a response."),
       [], [firstAIRequest msgs]) := by
  simp only [runAgentConversation]
  rw [h1]
  rcases h2 with h2 | h2 <;> simp [h2]

/-- C5: when the first inference response carries zero tool calls
(`tool_calls` absent or empty), no sandbox call is dispatched, no second
inference call happens, and the returned text is the response text when
present and non-empty, else the fixed fallback string. -/
theorem runAgentConversation_no_tool_calls
    (ai : AIRequest → Except Thrown AIResult) (jp : String → Option Json)
    (sb : SandboxModel) (msgs : List ChatMessage) (cfg : GitToolsConfig)
    (r : AIResult)
    (h1 : ai (firstAIRequest msgs) = .ok r)
    (h2 : r.tool_calls = none ∨ r.tool_calls = some []) :
    (runAgentConversation ai jp sb msgs cfg).2.1 = [] ∧
    (runAgentConversation ai jp sb msgs cfg).2.2 = [firstAIRequest msgs] ∧
    (∀ s, r.response = some s → s ≠ "" →
      (runAgentConversation ai jp sb msgs cfg).1 = .ok s) ∧
    ((r.response = none ∨ r.response = some "") →
      (runAgentConversation ai jp sb msgs cfg).1 =
        .ok "I apologize, but I could not generate a response.") := by
  rw [runAgent_eq_no_toolcalls ai jp sb msgs cfg r h1 h2]
  refine ⟨rfl, rfl, ?_, ?_⟩
  · intro s hs hne
    rw [hs]
    simp [jsOr, hne]
  · rintro (h | h) <;> rw [h] <;> simp [jsOr]

/-- Witness for C5: a concrete inference oracle with no tool calls makes the
orchestrator return the text unchanged with empty traces. -/
theorem runAgentConversation_no_tool_calls_w :
    (runAgentConversation aiPlain jpEmptyObj sbOk [] cfgDefault).2.1 = [] ∧
    (runAgentConversation aiPlain jpEmptyObj sbOk [] cfgDefault).2.2 =
      [firstAIRequest []] ∧
    (runAgentConversation aiPlain jpEmptyObj sbOk [] cfgDefault).1 = .ok "hello" := by
  have h := runAgentConversation_no_tool_calls aiPlain jpEmptyObj sbOk [] cfgDefault
    { response := some "hello", tool_calls := none } rfl (Or.inl rfl)
  exact ⟨h.1, h.2.1, h.2.2.1 "hello" rfl (by decide)⟩

/-- C8: with a non-empty batch, the dispatcher issues the per-call sandbox
traces concatenated in batch order; the second inference request extends the
first-round transcript with one synthetic assistant message and then exactly
one tool-role message per call in order, each carrying the originating
call id; it offers no tools and uses the same generation budget. -/
theorem runAgentConversation_dispatch_order
    (ai : AIRequest → Except Thrown AIResult) (jp : String → Option Json)
    (sb : SandboxModel) (msgs : List ChatMessage) (cfg : GitToolsConfig)
    (r : AIResult) (tcs : List ToolCall)
    (h1 : ai (firstAIRequest msgs) = .ok r)
    (h2 : r.tool_calls = some tcs) (hne : tcs ≠ []) :
    (runAgentConversation ai jp sb msgs cfg).2.2 =
      [firstAIRequest msgs, followUpAIRequest jp sb cfg msgs tcs] ∧
    (runAgentConversation ai jp sb msgs cfg).2.1 =
      (tcs.map (fun tc => (executeToolCall jp sb tc cfg).2)).flatten ∧
    (followUpAIRequest jp sb cfg msgs tcs).messages =
      (systemMessage :: msgs) ++ [assistantEchoMessage tcs] ++
        tcs.map (toolResultMessage jp sb cfg) ∧
    (∀ tc, toolResultMessage jp sb cfg tc =
      { role := "tool", content := (executeToolCall jp sb tc cfg).1
      , tool_call_id := some tc.id, tool_calls := none }) ∧
    (followUpAIRequest jp sb cfg msgs tcs).tools = none ∧
    (followUpAIRequest jp sb cfg msgs tcs).max_tokens =
      (firstAIRequest msgs).max_tokens := by
  rw [runAgent_eq_toolcalls ai jp sb msgs cfg r tcs h1 h2 hne]
  exact ⟨rfl, rfl, rfl, fun tc => rfl, rfl, rfl⟩

/-- Witness for C8: the dispatch-order theorem applied to a concrete
one-call batch. -/
theorem runAgentConversation_dispatch_order_w :
    (runAgentConversation (aiBatch [statusCall]) jpEmptyObj sbOk [] cfgDefault).2.2 =
      [firstAIRequest [], followUpAIRequest jpEmptyObj sbOk cfgDefault [] [statusCall]] ∧
    (runAgentConversation (aiBatch [statusCall]) jpEmptyObj sbOk [] cfgDefault).2.1 =
      [SandboxCall.exec "git" ["-C", "/workspace/repo", "status"]] := by
  have h := runAgentConversation_dispatch_order (aiBatch [statusCall]) jpEmptyObj sbOk []
    cfgDefault { response := none, tool_calls := some [statusCall] } [statusCall]
    rfl rfl (by decide)
  exact ⟨h.1, h.2.1.trans rfl⟩

/-- C6: a tool call whose operation name is not one of the seven registered
tools yields the string `Unknown tool: <name>` with an empty sandbox trace
(no Facade operation), and the orchestrator still performs the second
inference round and returns its reply. -/
theorem executeToolCall_unknown_tool :
    registeredToolNames = agentTools.map (fun t => t.name) ∧
    (∀ (jp : String → Option Json) (sb : SandboxModel) (cfg : GitToolsConfig)
       (tc : ToolCall) (v : Json), parsedArgs jp tc = some v →
       tc.name ∉ registeredToolNames →
       executeToolCall jp sb tc cfg = ("Unknown tool: " ++ tc.name, [])) ∧
    (∀ (jp : String → Option Json) (sb : SandboxModel) (cfg : GitToolsConfig)
       (ai : AIRequest → Except Thrown AIResult) (msgs : List ChatMessage)
       (tc : ToolCall) (r r2 : AIResult),
       ai (firstAIRequest msgs) = .ok r → r.tool_calls = some [tc] →
       ai (followUpAIRequest jp sb cfg msgs [tc]) = .ok r2 →
       (runAgentConversation ai jp sb msgs cfg).1 =
         .ok (jsOr r2.response "I executed the requested operations.") ∧
       (runAgentConversation ai jp sb msgs cfg).2.2.length = 2) := by
  refine ⟨by decide, ?_, ?_⟩
  · intro jp sb cfg tc v hp hn
    simp only [executeToolCall]
    rw [hp]
    split
    · next heq => exact Option.noConfusion heq
    · next v2 heq =>
      split
      all_goals
        first
        | rfl
        | (next heq2 =>
            rw [heq2] at hn
            exact absurd (by decide) hn)
  · intro jp sb cfg ai msgs tc r r2 h1 h2 h3
    rw [runAgent_eq_toolcalls ai jp sb msgs cfg r [tc] h1 h2 (by simp)]
    rw [h3]
    exact ⟨rfl, rfl⟩

/-- Witness for C6: an unregistered operation name on concrete oracles
produces the unknown-tool string and the reply still comes from round
two. -/
theorem executeToolCall_unknown_tool_w :
    executeToolCall jpEmptyObj sbOk unknownCall cfgDefault =
      ("Unknown tool: delete_everything", []) ∧
    (runAgentConversation (aiBatch [unknownCall]) jpEmptyObj sbOk [] cfgDefault).1 =
      .ok "done" := by
  refine ⟨?_, ?_⟩
  · exact (executeToolCall_unknown_tool.2.1 jpEmptyObj sbOk cfgDefault unknownCall
      (Json.obj []) rfl (by decide)).trans (by decide)
  · exact ((executeToolCall_unknown_tool.2.2 jpEmptyObj sbOk cfgDefault
      (aiBatch [unknownCall]) [] unknownCall
      { response := none, tool_calls := some [unknownCall] }
      { response := some "done", tool_calls := none } rfl rfl rfl).1).trans rfl

/-- C7: a tool call whose argument payload fails to parse yields the fixed
error string with no sandbox call, and on a concrete two-call batch the
parse failure of the first call does not prevent the second from being
dispatched (its sandbox call is issued and its result message recorded). -/
theorem executeToolCall_invalid_args_batch :
    (∀ (jp : String → Option Json) (sb : SandboxModel) (cfg : GitToolsConfig)
       (tc : ToolCall), parsedArgs jp tc = none →
       executeToolCall jp sb tc cfg =
         ("Error: Invalid arguments for tool " ++ tc.name, [])) ∧
    executeToolCall jpBadMarker sbOk badArgsCall cfgDefault =
      ("Error: Invalid arguments for tool list_files", []) ∧
    [badArgsCall, statusCall].map (toolResultMessage jpBadMarker sbOk cfgDefault) =
      [{ role := "tool", content := "Error: Invalid arguments for tool list_files"
       , tool_call_id := some "1", tool_calls := none },
       { role := "tool", content := "clean"
       , tool_call_id := some "2", tool_calls := none }] ∧
    (runAgentConversation (aiBatch [badArgsCall, statusCall]) jpBadMarker sbOk []
        cfgDefault).2.1 =
      [SandboxCall.exec "git" ["-C", "/workspace/repo", "status"]] ∧
    (runAgentConversation (aiBatch [badArgsCall, statusCall]) jpBadMarker sbOk []
        cfgDefault).1 = .ok "done" := by
  refine ⟨?_, rfl, rfl, rfl, rfl⟩
  intro jp sb cfg tc hp
  simp only [executeToolCall]
  rw [hp]

/-- Witness for C7: the parse-failure clause applied at the concrete bad
call. -/
theorem executeToolCall_invalid_args_batch_w :
    executeToolCall jpBadMarker sbOk badArgsCall cfgDefault =
      ("Error: Invalid arguments for tool " ++ badArgsCall.name, []) :=
  executeToolCall_invalid_args_batch.1 jpBadMarker sbOk cfgDefault badArgsCall rfl

/-- Rejected names make the Facade read operation throw before any sandbox
call. -/
theorem readAppsScriptFile_reject (sb : SandboxModel) (fn : String)
    (h : validateFileName fn = false) :
    readAppsScriptFile sb fn = (.error (.err (invalidFileNameMessage fn)), []) := by
  simp [readAppsScriptFile, h]

/-- Accepted names proceed to exactly the sandbox read. -/
theorem readAppsScriptFile_accept (sb : SandboxModel) (fn : String)
    (h : validateFileName fn = true) :
    readAppsScriptFile sb fn =
      (sb.readFile ("/workspace/repo/appsscript/src/" ++ fn),
       [.readFile ("/workspace/repo/appsscript/src/" ++ fn)]) := by
  simp [readAppsScriptFile, h]

/-- Rejected names make the Facade write operation throw before any sandbox
call. -/
theorem writeAppsScriptFile_reject (sb : SandboxModel) (fn ct : String)
    (h : validateFileName fn = false) :
    writeAppsScriptFile sb fn ct =
      (.error (.err (invalidFileNameMessage fn)), []) := by
  simp [writeAppsScriptFile, h]

/-- C1: for dispatched `read_file` and `write_file` calls the Guard decides
before any sandbox operation: a fileName rejected by `validateFileName`
(escape substring or outside the allow-list) makes the Facade throw first,
so the call never reaches the sandbox (empty trace) and yields an
error-string tool result, while an accepted fileName proceeds to exactly
the corresponding sandbox operation. -/
theorem executeToolCall_guard_blocks_traversal :
    (∀ (jp : String → Option Json) (sb : SandboxModel) (cfg : GitToolsConfig)
       (tc : ToolCall) (v : Json) (fn : String),
       parsedArgs jp tc = some v → tc.name = "read_file" →
       getStrField (coerceToObject v) "fileName" = some fn →
       validateFileName fn = false →
       executeToolCall jp sb tc cfg =
         ("Error executing read_file: " ++ invalidFileNameMessage fn, [])) ∧
    (∀ (jp : String → Option Json) (sb : SandboxModel) (cfg : GitToolsConfig)
       (tc : ToolCall) (v : Json) (fn ct : String),
       parsedArgs jp tc = some v → tc.name = "write_file" →
       getStrField (coerceToObject v) "fileName" = some fn →
       getStrField (coerceToObject v) "content" = some ct →
       validateFileName fn = false →
       executeToolCall jp sb tc cfg =
         ("Error executing write_file: " ++ invalidFileNameMessage fn, [])) ∧
    (∀ (jp : String → Option Json) (sb : SandboxModel) (cfg : GitToolsConfig)
       (tc : ToolCall) (v : Json) (fn : String),
       parsedArgs jp tc = some v → tc.name = "read_file" →
       getStrField (coerceToObject v) "fileName" = some fn →
       validateFileName fn = true →
       (executeToolCall jp sb tc cfg).2 =
         [SandboxCall.readFile ("/workspace/repo/appsscript/src/" ++ fn)]) ∧
    validateFileName "../../etc/passwd" = false ∧
    executeToolCall jpTraversal sbOk traversalReadCall cfgDefault =
      ("Error executing read_file: Invalid file name: ../../etc/passwd. Allowed files: Code.js, index.html, appsscript.json",
       []) ∧
    executeToolCall jpTraversalWrite sbOk traversalWriteCall cfgDefault =
      ("Error executing write_file: Invalid file name: ../../etc/passwd. Allowed files: Code.js, index.html, appsscript.json",
       []) := by
  refine ⟨?_, ?_, ?_, by decide, rfl, rfl⟩
  · intro jp sb cfg tc v fn hp hname hfn hval
    simp only [executeToolCall]
    rw [hp]
    split
    · next heq => exact Option.noConfusion heq
    · next v2 heq =>
      obtain rfl : v2 = v := (Option.some.inj heq).symm
      split
      all_goals
        first
        | (next heq2 =>
            rw [hname] at heq2
            exact absurd heq2 (by decide))
        | (exact absurd hname (by assumption))
        | skip
      rw [hfn]
      split
      · next heq3 => exact Option.noConfusion heq3
      · next fn2 heq3 =>
        obtain rfl : fn = fn2 := Option.some.inj heq3
        rw [readAppsScriptFile_reject sb fn hval, hname]
        rfl
  · intro jp sb cfg tc v fn ct hp hname hfn hct hval
    simp only [executeToolCall]
    rw [hp]
    split
    · next heq => exact Option.noConfusion heq
    · next v2 heq =>
      obtain rfl : v2 = v := (Option.some.inj heq).symm
      split
      all_goals
        first
        | (next heq2 =>
            rw [hname] at heq2
            exact absurd heq2 (by decide))
        | (exact absurd hname (by assumption))
        | skip
      rw [hfn, hct]
      split
      · next fn2 ct2 heqf heqc =>
        obtain rfl : fn = fn2 := Option.some.inj heqf
        obtain rfl : ct = ct2 := Option.some.inj heqc
        rw [writeAppsScriptFile_reject sb fn ct hval, hname]
        rfl
      · next h1 => exact (h1 fn ct rfl rfl).elim
  · intro jp sb cfg tc v fn hp hname hfn hval
    simp only [executeToolCall]
    rw [hp]
    split
    · next heq => exact Option.noConfusion heq
    · next v2 heq =>
      obtain rfl : v2 = v := (Option.some.inj heq).symm
      split
      all_goals
        first
        | (next heq2 =>
            rw [hname] at heq2
            exact absurd heq2 (by decide))
        | (exact absurd hname (by assumption))
        | skip
      rw [hfn]
      split
      · next heq3 => exact Option.noConfusion heq3
      · next fn2 heq3 =>
        obtain rfl : fn = fn2 := Option.some.inj heq3
        rw [readAppsScriptFile_accept sb fn hval]
        cases sb.readFile ("/workspace/repo/appsscript/src/" ++ fn) <;> rfl

/-- Witness for C1: the rejection clause applied at the concrete traversal
call, plus the acceptance clause at an allow-listed name. -/
theorem executeToolCall_guard_blocks_traversal_w :
    executeToolCall jpTraversal sbOk traversalReadCall cfgDefault =
      ("Error executing read_file: " ++ invalidFileNameMessage "../../etc/passwd", []) ∧
    (executeToolCall jpCodeJs sbOk traversalReadCall cfgDefault).2 =
      [SandboxCall.readFile "/workspace/repo/appsscript/src/Code.js"] :=
  ⟨executeToolCall_guard_blocks_traversal.1 jpTraversal sbOk cfgDefault
      traversalReadCall (Json.obj [("fileName", Json.str "../../etc/passwd")])
      "../../etc/passwd" rfl rfl rfl (by decide),
   executeToolCall_guard_blocks_traversal.2.2.1 jpCodeJs sbOk cfgDefault
      traversalReadCall (Json.obj [("fileName", Json.str "Code.js")])
      "Code.js" rfl rfl rfl (by decide)⟩

/-- The orchestrator always issues the first-round request first. -/
theorem runAgent_head_request (ai : AIRequest → Except Thrown AIResult)
    (jp : String → Option Json) (sb : SandboxModel) (msgs : List ChatMessage)
    (cfg : GitToolsConfig) :
    (runAgentConversation ai jp sb msgs cfg).2.2.head? = some (firstAIRequest msgs) := by
  simp only [runAgentConversation]
  split
  · rfl
  · split
    · split
      · split
        · rfl
        · rfl
      · rfl
    · rfl

/-- On a validated body, `handleChat` forwards the traces of the orchestrator. -/
theorem handleChat_ok_trace (ai : AIRequest → Except Thrown AIResult)
    (jp : String → Option Json) (sb : SandboxModel) (b : Json)
    (msgs : List ChatMessage) (e1 e2 e3 : Option String)
    (hv : validateRequestBody b = .ok msgs) :
    (handleChat ai jp sb (.ok b) e1 e2 e3).2 =
      (runAgentConversation ai jp sb msgs (chatGitConfig e1 e2 e3)).2 := by
  simp only [handleChat]
  rw [hv]
  split
  · next t heq => exact Except.noConfusion heq
  · next messages heq =>
    obtain rfl : messages = msgs := (Except.ok.inj heq).symm
    split
    · next t tr2 ar2 heq2 => rw [heq2]
    · next resp tr2 ar2 heq2 => rw [heq2]

/-- C9: every failing path of `handleChat` produces status 500 with a JSON
body of exactly the fields `message` (the fixed apology) and `error` (the
error description, or the fixed unknown-error string for a non-Error throw); the
success path produces a JSON body with the single field `message`. -/
theorem handleChat_error_envelope :
    (∀ (ai : AIRequest → Except Thrown AIResult) (jp : String → Option Json)
       (sb : SandboxModel) (t : Thrown) (e1 e2 e3 : Option String),
       handleChat ai jp sb (.error t) e1 e2 e3 = (errorEnvelope t, [], [])) ∧
    (∀ (ai : AIRequest → Except Thrown AIResult) (jp : String → Option Json)
       (sb : SandboxModel) (b : Json) (t : Thrown) (e1 e2 e3 : Option String),
       validateRequestBody b = .error t →
       handleChat ai jp sb (.ok b) e1 e2 e3 = (errorEnvelope t, [], [])) ∧
    (∀ (ai : AIRequest → Except Thrown AIResult) (jp : String → Option Json)
       (sb : SandboxModel) (b : Json) (msgs : List ChatMessage)
       (e1 e2 e3 : Option String) (t : Thrown)
       (tr : List SandboxCall) (ar : List AIRequest),
       validateRequestBody b = .ok msgs →
       runAgentConversation ai jp sb msgs (chatGitConfig e1 e2 e3) = (.error t, tr, ar) →
       handleChat ai jp sb (.ok b) e1 e2 e3 = (errorEnvelope t, tr, ar)) ∧
    (∀ (ai : AIRequest → Except Thrown AIResult) (jp : String → Option Json)
       (sb : SandboxModel) (b : Json) (msgs : List ChatMessage)
       (e1 e2 e3 : Option String) (resp : String)
       (tr : List SandboxCall) (ar : List AIRequest),
       validateRequestBody b = .ok msgs →
       runAgentConversation ai jp sb msgs (chatGitConfig e1 e2 e3) = (.ok resp, tr, ar) →
       handleChat ai jp sb (.ok b) e1 e2 e3 =
         ((200, Json.obj [("message", Json.str resp)]), tr, ar)) ∧
    (∀ t, errorEnvelope t =
      (500, Json.obj [("message", Json.str APOLOGY),
                      ("error", Json.str (describeThrown t))])) ∧
    describeThrown Thrown.nonError = "Unknown error" := by
  refine ⟨fun ai jp sb t e1 e2 e3 => rfl, ?_, ?_, ?_, fun t => rfl, rfl⟩
  · intro ai jp sb b t e1 e2 e3 hv
    simp only [handleChat]
    rw [hv]
  · intro ai jp sb b msgs e1 e2 e3 t tr ar hv hrun
    simp only [handleChat]
    rw [hv]
    split
    · next t2 heq => exact Except.noConfusion heq
    · next messages heq =>
      obtain rfl : messages = msgs := (Except.ok.inj heq).symm
      rw [hrun]
  · intro ai jp sb b msgs e1 e2 e3 resp tr ar hv hrun
    simp only [handleChat]
    rw [hv]
    split
    · next t2 heq => exact Except.noConfusion heq
    · next messages heq =>
      obtain rfl : messages = msgs := (Except.ok.inj heq).symm
      rw [hrun]

/-- Witness for C9: a body that fails to parse yields the 500 envelope with
the error description, via `handleChat_error_envelope`. -/
theorem handleChat_error_envelope_w :
    handleChat aiPlain jpEmptyObj sbOk (.error (.err "Unexpected end of JSON input"))
        none none none =
      ((500, Json.obj [("message", Json.str APOLOGY),
                       ("error", Json.str "Unexpected end of JSON input")]), [], []) :=
  (handleChat_error_envelope.1 aiPlain jpEmptyObj sbOk
    (.err "Unexpected end of JSON input") none none none).trans rfl

/-- C10: a JSON-object body whose `messages` field is missing or not an
array makes `validateRequestBody` return the empty list rather than throw,
and the request then reaches the orchestrator with only the system prompt
as transcript; `validateRequestBody` throws exactly on `null` and
non-object primitives (arrays pass the `typeof` check). -/
theorem validateRequestBody_lenient :
    (∀ kvs : List (String × Json),
      (∀ ms, getField kvs "messages" ≠ some (Json.arr ms)) →
      validateRequestBody (Json.obj kvs) = .ok []) ∧
    (∀ b : Json, (∃ t, validateRequestBody b = .error t) ↔
      (b = Json.null ∨ (∃ x, b = Json.bool x) ∨ (∃ n, b = Json.num n) ∨
       (∃ s, b = Json.str s))) ∧
    (∀ (ai : AIRequest → Except Thrown AIResult) (jp : String → Option Json)
       (sb : SandboxModel) (kvs : List (String × Json)) (e1 e2 e3 : Option String),
      (∀ ms, getField kvs "messages" ≠ some (Json.arr ms)) →
      (handleChat ai jp sb (.ok (Json.obj kvs)) e1 e2 e3).2.2.head? =
        some (firstAIRequest [])) ∧
    (firstAIRequest []).messages = [systemMessage] := by
  have hlen : ∀ kvs : List (String × Json),
      (∀ ms, getField kvs "messages" ≠ some (Json.arr ms)) →
      validateRequestBody (Json.obj kvs) = .ok [] := by
    intro kvs h
    simp only [validateRequestBody]
  refine ⟨hlen, ?_, ?_, rfl⟩
  · intro b
    cases b with
    | null => simp [validateRequestBody]
    | bool x => simp [validateRequestBody]
    | num n => simp [validateRequestBody]
    | str s => simp [validateRequestBody]
    | arr xs => simp [validateRequestBody]
    | obj kvs =>
      constructor
      · rintro ⟨t, ht⟩
        simp only [validateRequestBody] at ht
        cases hf : getField kvs "messages" with
        | none => rw [hf] at ht; exact Except.noConfusion ht
        | some v =>
          cases v <;> (rw [hf] at ht; exact Except.noConfusion ht)
      · rintro (h | ⟨x, h⟩ | ⟨n, h⟩ | ⟨s, h⟩) <;> exact Json.noConfusion h
  · intro ai jp sb kvs e1 e2 e3 h
    have hok := hlen kvs h
    have ht := handleChat_ok_trace ai jp sb (Json.obj kvs) [] e1 e2 e3 hok
    have h2 : (handleChat ai jp sb (.ok (Json.obj kvs)) e1 e2 e3).2.2 =
        (runAgentConversation ai jp sb [] (chatGitConfig e1 e2 e3)).2.2 := by
      rw [ht]
    rw [h2, runAgent_head_request]

/-- Witness for C10: a concrete object body without a `messages` array
validates to the empty list, and the first inference request carries only
the system prompt. -/
theorem validateRequestBody_lenient_w :
    validateRequestBody (Json.obj [("foo", Json.str "bar")]) = .ok [] ∧
    (handleChat aiPlain jpEmptyObj sbOk (.ok (Json.obj [("foo", Json.str "bar")]))
        none none none).2.2.head? = some (firstAIRequest []) :=
  ⟨validateRequestBody_lenient.1 [("foo", Json.str "bar")]
      (fun _ h => Option.noConfusion h),
   validateRequestBody_lenient.2.2.1 aiPlain jpEmptyObj sbOk
      [("foo", Json.str "bar")] none none none
      (fun _ h => Option.noConfusion h)⟩
